import Mathlib

/-!
Verification of the Barcelona trip planner (`src/App.js` plus the Vercel
`api/directions.js` proxy) against its natural-language specification.

The development shallowly embeds the planner's logic in Lean:

* pure helpers (`haversine`, `daterange`, `toICS`, `move`, `effectiveStops`,
  the share-link codec) are translated directly from `src/App.js`;
* JavaScript platform built-ins that the code calls (`Math.atan2`,
  `Date` parsing/formatting, `btoa`/`atob`, `encodeURIComponent`/
  `decodeURIComponent`, `escape`/`unescape`, `JSON.stringify`/`JSON.parse`)
  are modelled from their ECMAScript / WHATWG specifications; JSON
  serialisation is kept abstract (a parameter with its documented
  round-trip law), the rest are modelled concretely;
* network fetches are modelled as oracles (functions supplied as
  parameters) so that every pattern of per-leg success and failure can be
  quantified over;
* JavaScript numbers are modelled as real numbers, machine strings as
  `String` or as lists of Unicode code points (`List ℕ`) where the
  byte-level codecs need them.
-/

set_option maxHeartbeats 1000000
set_option maxRecDepth 8000

/-! ## Data model (the `Place`, `Stop`, `Plan` typedefs of `App.js`) -/

/-- A geocoded place: `{ id, name, lat, lon, address? }` in `App.js`.
Coordinates are JavaScript numbers, modelled as reals. -/
structure Place where
  id : String
  name : String
  lat : ℝ
  lon : ℝ
  address : Option String
deriving Inhabited

/-- A planned stop: `{ place, start, end, notes? }` in `App.js`.
`start`/`end` are local clock strings such as `"10:00"`. -/
structure Stop where
  place : Place
  start : String
  «end» : String
  notes : Option String
deriving Inhabited

/-- The `Plan` typedef: a JavaScript object mapping ISO date strings to
ordered stop lists.  Modelled as an association list in insertion order
(JavaScript objects preserve string-key insertion order). -/
abbrev Plan := List (String × List Stop)

/-! ## Distance estimator (`haversine` in `App.js`)

The source:
```js
function haversine(lat1, lon1, lat2, lon2){
  const R = 6371e3, toRad = x=>x*Math.PI/180;
  const dphi = toRad(lat2-lat1), dl = toRad(lon2-lon1);
  const a = Math.sin(dphi/2)**2 + Math.cos(toRad(lat1))*Math.cos(toRad(lat2))*Math.sin(dl/2)**2;
  return R * 2 * Math.atan2(Math.sqrt(1-a), Math.sqrt(a));
}
```
`Math.atan2` is a platform built-in; `atan2` below is its ECMAScript
definition (quadrant-correct arctangent, `atan2 y x` is the angle of the
point `(x, y)`), restricted to finite inputs. -/

/-- Models `Math.atan2(y, x)` on finite reals. -/
noncomputable def atan2 (y x : ℝ) : ℝ :=
  if 0 < x then Real.arctan (y / x)
  else if x < 0 then
    (if 0 ≤ y then Real.arctan (y / x) + Real.pi else Real.arctan (y / x) - Real.pi)
  else if 0 < y then Real.pi / 2
  else if y < 0 then -(Real.pi / 2)
  else 0

/-- Direct translation of `haversine` from `App.js`.  Note the argument
order of the final `atan2` call is exactly the source's:
`atan2(sqrt(1-a), sqrt(a))`. -/
noncomputable def haversine (lat1 lon1 lat2 lon2 : ℝ) : ℝ :=
  let R : ℝ := 6371000
  let toRad : ℝ → ℝ := fun x => x * Real.pi / 180
  let dphi := toRad (lat2 - lat1)
  let dl := toRad (lon2 - lon1)
  let a := Real.sin (dphi / 2) ^ 2 +
    Real.cos (toRad lat1) * Real.cos (toRad lat2) * Real.sin (dl / 2) ^ 2
  R * 2 * atan2 (Real.sqrt (1 - a)) (Real.sqrt a)

/-! ## Effective stop sequence (`effectiveStops` in `App.js`) -/

/-- The synthetic stop `{ place: hotel, start: "08:00", end: "08:00" }`
prepended by `effectiveStops` when the start anchor is on. -/
def hotelStartStop (h : Place) : Stop := ⟨h, "08:00", "08:00", none⟩

/-- The synthetic stop `{ place: hotel, start: "22:00", end: "22:00" }`
appended by `effectiveStops` when the end anchor is on. -/
def hotelEndStop (h : Place) : Stop := ⟨h, "22:00", "22:00", none⟩

/-- Direct translation of the `effectiveStops` memo from `App.js`:
```js
let arr = [...dayStops];
if (hotel && useHotelStart) arr = [{ place: hotel, start: "08:00", end: "08:00" }, ...arr];
if (hotel && useHotelEnd)   arr = [...arr, { place: hotel, start: "22:00", end: "22:00" }];
return arr;
``` -/
def effectiveStops (dayStops : List Stop) (hotel : Option Place)
    (useHotelStart useHotelEnd : Bool) : List Stop :=
  let arr := dayStops
  let arr := match hotel, useHotelStart with
    | some h, true => hotelStartStop h :: arr
    | _, _ => arr
  let arr := match hotel, useHotelEnd with
    | some h, true => arr ++ [hotelEndStop h]
    | _, _ => arr
  arr

/-- The spec's wording of the effective sequence, for comparison:
"[hotel if start-anchor enabled] ++ [day's stops in order] ++
[hotel if end-anchor enabled]; hotel anchoring only applies when a hotel
is set". -/
def specEffectiveStops (dayStops : List Stop) (hotel : Option Place)
    (useHotelStart useHotelEnd : Bool) : List Stop :=
  (match hotel, useHotelStart with
    | some h, true => [hotelStartStop h]
    | _, _ => []) ++ dayStops ++
  (match hotel, useHotelEnd with
    | some h, true => [hotelEndStop h]
    | _, _ => [])

/-! ## Route segments (the route-recomputation effect in `App.js`)

The effect:
```js
if (coords.length < 2) { setSegments([]); return; }
const segs = [];
for (let i=0; i<coords.length-1; i++){
  try{
    const seg = await fetchRoute(routeMode, coords[i], coords[i+1]);
    segs.push(seg);
  }catch{
    const m = haversine(coords[i][0], coords[i][1], coords[i+1][0], coords[i+1][1]);
    segs.push({ line:[coords[i], coords[i+1]], meters:m, seconds: m/1.25 });
    setRoutingError("Routing unavailable for some legs; showing straight lines.");
  }
}
if (!cancelled) setSegments(segs);
```
`fetchRoute` performs network requests, so it is modelled as an oracle:
a function from the travel mode, the call sequence number (leg index,
capturing per-call network nondeterminism) and the two endpoint
coordinates to `Option Segment`, where `none` models a throw or an
unusable route (the `catch` branch).  We model the uncancelled run. -/

/-- The travel mode (`routeMode` state): `"foot" | "driving" | "bike" |
"transit"`. -/
inductive RouteMode where
  | foot | driving | bike | transit
deriving DecidableEq

/-- A latitude/longitude pair, as used in `coords`. -/
abbrev Coord := ℝ × ℝ

/-- A route segment `{ line, meters, seconds }`.  `meters`/`seconds` are
`Option` because the transit proxy may return `null` for them. -/
structure Segment where
  line : List Coord
  meters : Option ℝ
  seconds : Option ℝ

/-- The `catch` branch of the route loop: the straight two-point fallback
segment `{ line:[from, to], meters:m, seconds: m/1.25 }` with
`m = haversine(...)`.  It does not depend on the travel mode. -/
noncomputable def fallbackSeg (p q : Coord) : Segment :=
  { line := [p, q]
    meters := some (haversine p.1 p.2 q.1 q.2)
    seconds := some (haversine p.1 p.2 q.1 q.2 / 1.25) }

/-- The result the loop pushes for leg `i`: the fetched segment when the
oracle succeeds, the straight-line fallback when it fails. -/
noncomputable def legResult (fetch : RouteMode → ℕ → Coord → Coord → Option Segment)
    (mode : RouteMode) (coords : List Coord) (i : ℕ) : Segment :=
  match fetch mode i (coords.getD i default) (coords.getD (i + 1) default) with
  | some seg => seg
  | none => fallbackSeg (coords.getD i default) (coords.getD (i + 1) default)

/-- The `for (let i=0; i<coords.length-1; i++)` loop, building the segment
list from index `i` on. -/
noncomputable def segLoop (fetch : RouteMode → ℕ → Coord → Coord → Option Segment)
    (mode : RouteMode) (coords : List Coord) (i : ℕ) : List Segment :=
  if _h : i < coords.length - 1 then
    legResult fetch mode coords i :: segLoop fetch mode coords (i + 1)
  else []
termination_by coords.length - 1 - i
decreasing_by omega

/-- The whole route-recomputation effect (uncancelled run): the segment
list installed by `setSegments`. -/
noncomputable def buildSegments (fetch : RouteMode → ℕ → Coord → Coord → Option Segment)
    (mode : RouteMode) (coords : List Coord) : List Segment :=
  if coords.length < 2 then []
  else segLoop fetch mode coords 0

theorem segLoop_length (fetch : RouteMode → ℕ → Coord → Coord → Option Segment)
    (mode : RouteMode) (coords : List Coord) :
    ∀ n i, coords.length - 1 - i = n →
      (segLoop fetch mode coords i).length = n := by
  intro n
  induction n with
  | zero =>
    intro i hi
    rw [segLoop, dif_neg (by omega)]
    rfl
  | succ n ih =>
    intro i hi
    rw [segLoop, dif_pos (by omega)]
    simp only [List.length_cons]
    rw [ih (i + 1) (by omega)]

theorem segLoop_getElem? (fetch : RouteMode → ℕ → Coord → Coord → Option Segment)
    (mode : RouteMode) (coords : List Coord) :
    ∀ n i k, coords.length - 1 - i = n → k < n →
      (segLoop fetch mode coords i)[k]? = some (legResult fetch mode coords (i + k)) := by
  intro n
  induction n with
  | zero => intro i k _ hk; omega
  | succ n ih =>
    intro i k hi hk
    rw [segLoop, dif_pos (by omega)]
    match k with
    | 0 => simp
    | k + 1 =>
      simp only [List.getElem?_cons_succ]
      rw [ih (i + 1) k (by omega) (by omega)]
      have harg : i + 1 + k = i + (k + 1) := by omega
      rw [harg]

/-! ## Claim C1 — the distance estimator

The spec claims `haversine` computes the great-circle distance (0 for a
point to itself, ≈111195 m between (0,0) and (0,1)).  The source swaps
the two arguments of the final `atan2` call (`atan2(sqrt(1-a), sqrt(a))`
instead of the haversine formula's `atan2(sqrt(a), sqrt(1-a))`), so it
returns `R·π` minus the true distance: `R·π ≈ 20015087 m` for a point to
itself, and `R·(π - π/180) ≈ 19903892 m` for (0,0)–(0,1). -/

/-- C1: the distance estimator does not compute the haversine distance:
at identical coordinates it returns `6371000·π` (not 0), and between
(0,0) and (0,1) it returns `6371000·(π - π/180)`, which exceeds
1,000,000 m and is therefore nowhere near 111,195 m ± 1%. -/
theorem haversine_swapped_atan2_bug :
    haversine 0 0 0 0 = 6371000 * Real.pi ∧
    haversine 0 0 0 0 ≠ 0 ∧
    haversine 0 0 0 1 = 6371000 * (Real.pi - Real.pi / 180) ∧
    1000000 < haversine 0 0 0 1 := by
  have hself : haversine 0 0 0 0 = 6371000 * Real.pi := by
    have ha : Real.sin (((0 : ℝ) - 0) * Real.pi / 180 / 2) ^ 2 +
        Real.cos ((0 : ℝ) * Real.pi / 180) * Real.cos ((0 : ℝ) * Real.pi / 180) *
          Real.sin (((0 : ℝ) - 0) * Real.pi / 180 / 2) ^ 2 = 0 := by
      have h1 : ((0 : ℝ) - 0) * Real.pi / 180 / 2 = 0 := by ring
      rw [h1, Real.sin_zero]
      ring
    simp only [haversine]
    rw [ha]
    rw [show (1 : ℝ) - 0 = 1 from by norm_num, Real.sqrt_one, Real.sqrt_zero]
    simp only [atan2]
    rw [if_neg (lt_irrefl (0 : ℝ)), if_neg (lt_irrefl (0 : ℝ)), if_pos (one_pos)]
    ring
  have hone : haversine 0 0 0 1 = 6371000 * (Real.pi - Real.pi / 180) := by
    have hθpos : (0 : ℝ) < Real.pi / 360 := by positivity
    have hθlt : Real.pi / 360 < Real.pi / 2 := by
      have := Real.pi_pos; linarith
    have hsin_pos : 0 < Real.sin (Real.pi / 360) :=
      Real.sin_pos_of_pos_of_lt_pi hθpos (by have := Real.pi_pos; linarith)
    have hcos_nonneg : 0 ≤ Real.cos (Real.pi / 360) :=
      Real.cos_nonneg_of_mem_Icc ⟨by linarith, le_of_lt hθlt⟩
    have ha : Real.sin (((0 : ℝ) - 0) * Real.pi / 180 / 2) ^ 2 +
        Real.cos ((0 : ℝ) * Real.pi / 180) * Real.cos ((0 : ℝ) * Real.pi / 180) *
          Real.sin (((1 : ℝ) - 0) * Real.pi / 180 / 2) ^ 2 =
        Real.sin (Real.pi / 360) ^ 2 := by
      have h1 : ((0 : ℝ) - 0) * Real.pi / 180 / 2 = 0 := by ring
      have h2 : ((1 : ℝ) - 0) * Real.pi / 180 / 2 = Real.pi / 360 := by ring
      have h3 : (0 : ℝ) * Real.pi / 180 = 0 := by ring
      rw [h1, h2, h3, Real.sin_zero, Real.cos_zero]
      ring
    have hsqa : Real.sqrt (Real.sin (Real.pi / 360) ^ 2) = Real.sin (Real.pi / 360) :=
      Real.sqrt_sq (le_of_lt hsin_pos)
    have hsqb : Real.sqrt (1 - Real.sin (Real.pi / 360) ^ 2) = Real.cos (Real.pi / 360) := by
      rw [← Real.cos_sq']
      exact Real.sqrt_sq hcos_nonneg
    simp only [haversine]
    rw [ha, hsqa, hsqb]
    simp only [atan2]
    rw [if_pos hsin_pos]
    have htan : Real.cos (Real.pi / 360) / Real.sin (Real.pi / 360) =
        Real.tan (Real.pi / 2 - Real.pi / 360) := by
      rw [Real.tan_pi_div_two_sub, Real.tan_eq_sin_div_cos]
      rw [inv_div]
    rw [htan, Real.arctan_tan (by have := Real.pi_pos; linarith) (by linarith)]
    ring
  refine ⟨hself, ?_, hone, ?_⟩
  · rw [hself]
    have := Real.pi_pos
    positivity
  · rw [hone]
    have h3 : (3 : ℝ) < Real.pi := Real.pi_gt_three
    nlinarith

/-! ## Claim C2 — the effective stop sequence -/

/-- C2: for every day stop list, hotel value and pair of anchor booleans,
the effective stop sequence equals
[hotel if start-anchor] ++ [day's stops in order] ++ [hotel if end-anchor],
and with no hotel set it equals the day's stops regardless of the anchors. -/
theorem effectiveStops_correct (dayStops : List Stop) (hotel : Option Place)
    (useHotelStart useHotelEnd : Bool) :
    effectiveStops dayStops hotel useHotelStart useHotelEnd =
      specEffectiveStops dayStops hotel useHotelStart useHotelEnd ∧
    effectiveStops dayStops none useHotelStart useHotelEnd = dayStops := by
  constructor
  · cases hotel <;> cases useHotelStart <;> cases useHotelEnd <;>
      first
        | rfl
        | exact (List.append_nil _).symm
  · cases useHotelStart <;> cases useHotelEnd <;> rfl

/-! ## Claim C3 — segment count and pairing, robust to per-leg failures -/

/-- C3: for every effective coordinate sequence, travel mode and pattern of
per-leg fetch outcomes (the oracle `fetch`, with `none` modelling a throw),
the recomputed segment list has length `max(length − 1, 0)` (natural
subtraction), and segment `i` is the result for the consecutive pair
`(coords[i], coords[i+1])` — so a failure on one leg never aborts or
omits a later leg. -/
theorem buildSegments_length_and_pairs
    (fetch : RouteMode → ℕ → Coord → Coord → Option Segment)
    (mode : RouteMode) (coords : List Coord) :
    (buildSegments fetch mode coords).length = coords.length - 1 ∧
    ∀ i, i < coords.length - 1 →
      (buildSegments fetch mode coords)[i]? = some (legResult fetch mode coords i) := by
  unfold buildSegments
  by_cases h : coords.length < 2
  · rw [if_pos h]
    refine ⟨by simpa using by omega, ?_⟩
    intro i hi
    omega
  · rw [if_neg h]
    refine ⟨segLoop_length fetch mode coords _ 0 rfl, ?_⟩
    intro i hi
    simpa using segLoop_getElem? fetch mode coords (coords.length - 1) 0 i (by omega) hi

/-- The everywhere-failing fetch oracle (every leg's request throws). -/
def fetchAllFail : RouteMode → ℕ → Coord → Coord → Option Segment :=
  fun _ _ _ _ => none

/-- Two concrete effective stops for witnesses: (0,0) and (0,1). -/
def witnessCoords : List Coord := [((0 : ℝ), (0 : ℝ)), ((0 : ℝ), (1 : ℝ))]

/-- Witness for C3 at a concrete two-stop day with a failing fetch. -/
theorem buildSegments_length_and_pairs_witness :
    (buildSegments fetchAllFail RouteMode.foot witnessCoords).length = 1 ∧
    (buildSegments fetchAllFail RouteMode.foot witnessCoords)[0]? =
      some (legResult fetchAllFail RouteMode.foot witnessCoords 0) := by
  have h := buildSegments_length_and_pairs fetchAllFail RouteMode.foot witnessCoords
  exact ⟨by simpa [witnessCoords] using h.1, h.2 0 (by decide)⟩

/-! ## Claim C4 — the straight-line fallback segment -/

/-- C4: for every leg whose fetch throws or returns no usable route (the
oracle yields `none`), the produced segment is the straight two-point line
between the leg's endpoints, its distance is the haversine estimate of the
endpoints and its duration is that distance divided by 1.25 m/s — for
every travel mode (the fallback does not consult the mode). -/
theorem buildSegments_fallback
    (fetch : RouteMode → ℕ → Coord → Coord → Option Segment)
    (mode : RouteMode) (coords : List Coord) (i : ℕ)
    (hfail : fetch mode i (coords.getD i default) (coords.getD (i + 1) default) = none)
    (hi : i < coords.length - 1) :
    (buildSegments fetch mode coords)[i]? =
      some (fallbackSeg (coords.getD i default) (coords.getD (i + 1) default)) ∧
    (fallbackSeg (coords.getD i default) (coords.getD (i + 1) default)).line =
      [coords.getD i default, coords.getD (i + 1) default] ∧
    (fallbackSeg (coords.getD i default) (coords.getD (i + 1) default)).meters =
      some (haversine (coords.getD i default).1 (coords.getD i default).2
        (coords.getD (i + 1) default).1 (coords.getD (i + 1) default).2) ∧
    (fallbackSeg (coords.getD i default) (coords.getD (i + 1) default)).seconds =
      some (haversine (coords.getD i default).1 (coords.getD i default).2
        (coords.getD (i + 1) default).1 (coords.getD (i + 1) default).2 / 1.25) := by
  refine ⟨?_, rfl, rfl, rfl⟩
  have hcount : ¬ coords.length < 2 := by omega
  unfold buildSegments
  rw [if_neg hcount]
  have h := segLoop_getElem? fetch mode coords (coords.length - 1) 0 i rfl hi
  simp only [Nat.zero_add] at h
  rw [h]
  unfold legResult
  rw [hfail]

/-- Witness for C4: with a failing fetch on the concrete two-stop day, leg 0
is the straight-line fallback (here under the `bike` mode; the fallback is
mode-independent). -/
theorem buildSegments_fallback_witness :
    (buildSegments fetchAllFail RouteMode.bike witnessCoords)[0]? =
      some (fallbackSeg (witnessCoords.getD 0 default) (witnessCoords.getD 1 default)) := by
  exact (buildSegments_fallback fetchAllFail RouteMode.bike witnessCoords 0 rfl
    (by decide)).1

/-! ## Itinerary store: `move` (claim C8)

The source:
```js
function move(idx, dir){
  const next = {...plan};
  const arr = [...(next[selectedDay]||[])];
  const j = idx+dir; if(j<0 || j>=arr.length) return;
  [arr[idx], arr[j]] = [arr[j], arr[idx]];
  next[selectedDay] = arr; setPlan(next);
}
```
The plan object is modelled as an association list in key insertion order;
JavaScript object keys are unique, but no uniqueness is assumed in the
proofs. -/

/-- `plan[day] || []`: the day's stop list, defaulting to empty. -/
def planGet (plan : Plan) (day : String) : List Stop :=
  match plan.find? (fun e => e.1 == day) with
  | some e => e.2
  | none => []

/-- `next[day] = stops` on a JavaScript object: replace the value of an
existing key in place, else append the new key (insertion order). -/
def planSet (plan : Plan) (day : String) (stops : List Stop) : Plan :=
  if plan.any (fun e => e.1 == day) then
    plan.map (fun e => if e.1 == day then (day, stops) else e)
  else plan ++ [(day, stops)]

/-- The destructuring swap `[arr[idx], arr[j]] = [arr[j], arr[idx]]`.
`move` only reaches it with `j` in range and `idx` a valid UI index. -/
def listSwap (arr : List Stop) (i j : ℕ) : List Stop :=
  if h : i < arr.length ∧ j < arr.length then
    (arr.set i (arr.get ⟨j, h.2⟩)).set j (arr.get ⟨i, h.1⟩)
  else arr

/-- Direct translation of `move` (the early `return` leaves the plan
untouched). -/
def move (plan : Plan) (selectedDay : String) (idx : ℕ) (dir : ℤ) : Plan :=
  let arr := planGet plan selectedDay
  let j : ℤ := (idx : ℤ) + dir
  if j < 0 ∨ (arr.length : ℤ) ≤ j then plan
  else planSet plan selectedDay (listSwap arr idx j.toNat)

theorem planGet_planSet (plan : Plan) (day : String) (stops : List Stop) :
    planGet (planSet plan day stops) day = stops := by
  induction plan with
  | nil => simp [planSet, planGet]
  | cons e tl ih =>
    by_cases he : (e.1 == day) = true
    · unfold planSet
      rw [if_pos (by simp [List.any_cons, he])]
      simp only [List.map_cons, if_pos he]
      unfold planGet
      simp [List.find?]
    · by_cases ha : (tl.any (fun x => x.1 == day)) = true
      · unfold planSet
        rw [if_pos (by simp [List.any_cons, ha])]
        simp only [List.map_cons, if_neg he]
        unfold planGet
        simp only [List.find?, he]
        unfold planSet at ih
        rw [if_pos ha] at ih
        unfold planGet at ih
        exact ih
      · unfold planSet
        rw [if_neg (by simp [List.any_cons, he, ha])]
        rw [List.cons_append]
        unfold planGet
        simp only [List.find?, he]
        unfold planSet at ih
        rw [if_neg ha] at ih
        unfold planGet at ih
        exact ih

/-! ## Claim C8 — `move` boundary no-ops and adjacent swap -/

/-- C8: moving the stop at index 0 up is a no-op, moving the stop at the
last index down is a no-op (the plan is unchanged in both cases); for an
in-range index and a non-boundary direction (`dir = ±1` with the target
index in range), `move` swaps the stop with its adjacent element and
leaves every other stop of the day in place. -/
theorem move_correct :
    (∀ (plan : Plan) (day : String), move plan day 0 (-1) = plan) ∧
    (∀ (plan : Plan) (day : String),
      move plan day ((planGet plan day).length - 1) 1 = plan) ∧
    (∀ (plan : Plan) (day : String) (idx : ℕ) (dir : ℤ),
      (dir = 1 ∨ dir = -1) →
      0 ≤ (idx : ℤ) + dir →
      (idx : ℤ) + dir < ((planGet plan day).length : ℤ) →
      idx < (planGet plan day).length →
      ∀ k : ℕ,
        (planGet (move plan day idx dir) day)[k]? =
          if k = idx then (planGet plan day)[((idx : ℤ) + dir).toNat]?
          else if k = ((idx : ℤ) + dir).toNat then (planGet plan day)[idx]?
          else (planGet plan day)[k]?) := by
  refine ⟨?_, ?_, ?_⟩
  · intro plan day
    unfold move
    rw [if_pos (Or.inl (by norm_num))]
  · intro plan day
    unfold move
    rw [if_pos (Or.inr (by omega))]
  · intro plan day idx dir hdir hge hlt hidx k
    have hj : (0 : ℤ) ≤ (idx : ℤ) + dir := hge
    unfold move
    rw [if_neg (by push_neg; exact ⟨by omega, hlt⟩)]
    rw [planGet_planSet]
    have hjn : ((idx : ℤ) + dir).toNat < (planGet plan day).length := by omega
    have hne : idx ≠ ((idx : ℤ) + dir).toNat := by
      rcases hdir with h1 | h1 <;> omega
    unfold listSwap
    rw [dif_pos ⟨hidx, hjn⟩]
    by_cases hk1 : k = ((idx : ℤ) + dir).toNat
    · subst hk1
      rw [List.getElem?_set_eq_of_lt _ (by simpa using hjn)]
      rw [if_neg (by omega), if_pos rfl]
      rw [List.getElem?_eq_getElem hidx]
      rfl
    · rw [List.getElem?_set_ne (by omega)]
      by_cases hk2 : k = idx
      · subst hk2
        rw [List.getElem?_set_eq_of_lt _ hidx]
        rw [if_pos rfl, List.getElem?_eq_getElem hjn]
        rfl
      · rw [List.getElem?_set_ne (by omega)]
        rw [if_neg hk2, if_neg hk1]

/-- A concrete two-stop day used by the `move` witness. -/
def moveWitnessStop1 : Stop := ⟨⟨"1", "A", 0, 0, none⟩, "10:00", "11:00", some ""⟩

/-- A second concrete stop used by the `move` witness. -/
def moveWitnessStop2 : Stop := ⟨⟨"2", "B", 1, 1, none⟩, "12:00", "13:00", some ""⟩

/-- A concrete plan with one day holding two stops, for the `move` witness. -/
def moveWitnessPlan : Plan := [("2025-09-01", [moveWitnessStop1, moveWitnessStop2])]

/-- Witness for C8: on the concrete two-stop day, moving index 0 down puts
the second stop first; boundary moves leave the plan unchanged. -/
theorem move_correct_witness :
    move moveWitnessPlan "2025-09-01" 0 (-1) = moveWitnessPlan ∧
    (planGet (move moveWitnessPlan "2025-09-01" 0 1) "2025-09-01")[0]? =
      (planGet moveWitnessPlan "2025-09-01")[1]? := by
  constructor
  · exact move_correct.1 moveWitnessPlan "2025-09-01"
  · have h := move_correct.2.2 moveWitnessPlan "2025-09-01" 0 1 (Or.inl rfl)
      (by norm_num) (by norm_num [moveWitnessPlan, planGet, List.find?]) 
      (by norm_num [moveWitnessPlan, planGet, List.find?]) 0
    simpa using h

/-! ## Dates: `parseDate`, `formatDate`, `daterange` (claim C7)

The source:
```js
function formatDate(d){ return d.toISOString().slice(0,10); }
function parseDate(s){ return new Date(s + "T00:00:00"); }
function daterange(start, end){
  const out=[]; let d = parseDate(start); const e = parseDate(end);
  while(d<=e){ out.push(formatDate(d)); d = new Date(d.getTime()+86400000); }
  return out;
}
```
Per ECMAScript, a date-time string without a timezone designator
(`"yyyy-mm-ddT00:00:00"`) is interpreted in the *local* timezone, while
`toISOString` always renders in UTC.  The platform `Date` is modelled as
an epoch-millisecond integer together with the host's UTC offset in
minutes (constant over the range; DST transitions would only add further
discrepancies).  The proleptic-Gregorian conversions `civilToDays` /
`daysToCivil` model ECMAScript's `MakeDay` / year-month-day extraction. -/

/-- Gregorian leap-year test (ECMAScript `DaysInYear`). -/
def isLeapYear (y : ℤ) : Bool :=
  (Int.emod y 4 == 0 && Int.emod y 100 != 0) || Int.emod y 400 == 0

/-- Days in a Gregorian month (used to validate a parsed date the way the
platform rejects impossible ISO dates as `Invalid Date`). -/
def daysInMonth (y m : ℤ) : ℤ :=
  if m = 2 then (if isLeapYear y then 29 else 28)
  else if m = 4 ∨ m = 6 ∨ m = 9 ∨ m = 11 then 30
  else 31

/-- Civil Gregorian date to days since 1970-01-01 (Hinnant's
`days_from_civil`, the standard closed form of the calendar the
ECMAScript `Date` specifies). -/
def civilToDays (y m d : ℤ) : ℤ :=
  let y2 := if m ≤ 2 then y - 1 else y
  let era := Int.fdiv y2 400
  let yoe := y2 - era * 400
  let mp := Int.emod (m + 9) 12
  let doy := Int.fdiv (153 * mp + 2) 5 + d - 1
  let doe := yoe * 365 + Int.fdiv yoe 4 - Int.fdiv yoe 100 + doy
  era * 146097 + doe - 719468

/-- Days since 1970-01-01 back to a civil Gregorian date (Hinnant's
`civil_from_days`). -/
def daysToCivil (z : ℤ) : ℤ × ℤ × ℤ :=
  let z2 := z + 719468
  let era := Int.fdiv z2 146097
  let doe := z2 - era * 146097
  let yoe := Int.fdiv (doe - Int.fdiv doe 1460 + Int.fdiv doe 36524 - Int.fdiv doe 146096) 365
  let y := yoe + era * 400
  let doy := doe - (365 * yoe + Int.fdiv yoe 4 - Int.fdiv yoe 100)
  let mp := Int.fdiv (5 * doy + 2) 153
  let d := doy - Int.fdiv (153 * mp + 2) 5 + 1
  let m := mp + (if mp < 10 then 3 else -9)
  (if m ≤ 2 then y + 1 else y, m, d)

/-- Decimal digit of a character, if any. -/
def digitVal (c : Char) : Option ℕ :=
  if '0' ≤ c ∧ c ≤ '9' then some (c.toNat - 48) else none

/-- Parses a `"yyyy-mm-dd"` string to a civil date, rejecting malformed or
impossible dates (the platform yields `Invalid Date` for those, which makes
`daterange`'s `while` guard false immediately). -/
def parseYmd (s : String) : Option (ℤ × ℤ × ℤ) :=
  match s.data with
  | [y1, y2, y3, y4, '-', m1, m2, '-', d1, d2] =>
    match digitVal y1, digitVal y2, digitVal y3, digitVal y4,
        digitVal m1, digitVal m2, digitVal d1, digitVal d2 with
    | some a, some b, some c, some d, some e, some f, some g, some h =>
      let y : ℤ := (a : ℤ) * 1000 + b * 100 + c * 10 + d
      let mo : ℤ := (e : ℤ) * 10 + f
      let da : ℤ := (g : ℤ) * 10 + h
      if 1 ≤ mo ∧ mo ≤ 12 ∧ 1 ≤ da ∧ da ≤ daysInMonth y mo then some (y, mo, da)
      else none
    | _, _, _, _, _, _, _, _ => none
  | _ => none

/-- Two-digit zero-padded decimal rendering. -/
def pad2 (n : ℤ) : String :=
  ⟨[Char.ofNat (48 + n.toNat / 10 % 10), Char.ofNat (48 + n.toNat % 10)]⟩

/-- Four-digit zero-padded decimal rendering. -/
def pad4 (n : ℤ) : String :=
  ⟨[Char.ofNat (48 + n.toNat / 1000 % 10), Char.ofNat (48 + n.toNat / 100 % 10),
    Char.ofNat (48 + n.toNat / 10 % 10), Char.ofNat (48 + n.toNat % 10)]⟩

/-- Renders a civil date as `"yyyy-mm-dd"`. -/
def renderYmd (c : ℤ × ℤ × ℤ) : String :=
  pad4 c.1 ++ "-" ++ pad2 c.2.1 ++ "-" ++ pad2 c.2.2

/-- `parseDate` of `App.js` under a host whose UTC offset is
`tzOffsetMin` minutes east: `new Date(s + "T00:00:00")` is local
midnight, i.e. epoch milliseconds `days·86400000 − tzOffsetMin·60000`.
`none` models `Invalid Date`. -/
def parseDate (tzOffsetMin : ℤ) (s : String) : Option ℤ :=
  (parseYmd s).map (fun c => civilToDays c.1 c.2.1 c.2.2 * 86400000 - tzOffsetMin * 60000)

/-- `formatDate` of `App.js`: `toISOString().slice(0,10)` renders the UTC
calendar date of the epoch instant. -/
def formatDate (t : ℤ) : String :=
  renderYmd (daysToCivil (Int.fdiv t 86400000))

/-- The `while(d<=e)` loop of `daterange`. -/
def daterangeLoop (e : ℤ) (d : ℤ) : List String :=
  if d ≤ e then formatDate d :: daterangeLoop e (d + 86400000) else []
termination_by (e + 1 - d).toNat
decreasing_by omega

/-- Direct translation of `daterange` (an `Invalid Date` at either end
makes the `while` guard false, hence `[]`). -/
def daterange (tzOffsetMin : ℤ) (startS endS : String) : List String :=
  match parseDate tzOffsetMin startS, parseDate tzOffsetMin endS with
  | some d, some e => daterangeLoop e d
  | _, _ => []

theorem daterangeLoop_le (e d : ℤ) (h : d ≤ e) :
    daterangeLoop e d = formatDate d :: daterangeLoop e (d + 86400000) := by
  conv_lhs => rw [daterangeLoop]
  rw [if_pos h]

theorem daterangeLoop_gt (e d : ℤ) (h : ¬ d ≤ e) : daterangeLoop e d = [] := by
  rw [daterangeLoop]
  rw [if_neg h]

/-! ## Claim C7 — the derived day sequence

`parseDate` interprets its input at *local* midnight while `formatDate`
renders the *UTC* calendar date.  In any host timezone east of UTC —
including Europe/Madrid (UTC+2 in September), the app's own locale —
every label in the derived day sequence is therefore one day earlier than
the chosen dates.  Only at UTC offset ≤ 0 does the sequence match the
spec's claim. -/

/-- C7: on a UTC+2 host (offset 120 minutes, e.g. Barcelona in September),
`daterange("2025-09-01","2025-09-03")` yields
`["2025-08-31","2025-09-01","2025-09-02"]`, not the claimed inclusive
sequence from start to end; on a UTC host the claimed sequence is
produced. -/
theorem daterange_local_parse_utc_format_bug :
    daterange 120 "2025-09-01" "2025-09-03" =
      ["2025-08-31", "2025-09-01", "2025-09-02"] ∧
    daterange 0 "2025-09-01" "2025-09-03" =
      ["2025-09-01", "2025-09-02", "2025-09-03"] := by
  constructor
  · have h1 : parseDate 120 "2025-09-01" = some 1756677600000 := by decide
    have h2 : parseDate 120 "2025-09-03" = some 1756850400000 := by decide
    unfold daterange
    rw [h1, h2]
    show daterangeLoop 1756850400000 1756677600000 = _
    rw [daterangeLoop_le _ _ (by decide), daterangeLoop_le _ _ (by decide),
      daterangeLoop_le _ _ (by decide), daterangeLoop_gt _ _ (by decide)]
    decide
  · have h1 : parseDate 0 "2025-09-01" = some 1756684800000 := by decide
    have h2 : parseDate 0 "2025-09-03" = some 1756857600000 := by decide
    unfold daterange
    rw [h1, h2]
    show daterangeLoop 1756857600000 1756684800000 = _
    rw [daterangeLoop_le _ _ (by decide), daterangeLoop_le _ _ (by decide),
      daterangeLoop_le _ _ (by decide), daterangeLoop_gt _ _ (by decide)]
    decide

/-! ## Geocoder client (the Nominatim search effect, claim C9)

The source:
```js
setError("");
if(query.trim().length < 3){ setResults([]); return; }
setLoading(true);
try{
  const url = new URL("https://nominatim.openstreetmap.org/search");
  url.searchParams.set("q", `${query} Barcelona`);
  url.searchParams.set("format","jsonv2");
  url.searchParams.set("limit","8");
  const res = await fetch(url.toString(), ...);
  ...
```
The guard uses `query.trim().length` — the length *after trimming
leading/trailing whitespace*, which is not the number of non-whitespace
characters (interior whitespace still counts).  JavaScript's `.length`
counts UTF-16 code units, so an astral character (code point at or above
0x10000, stored as a surrogate pair) counts as two. -/

/-- The ECMAScript `String.prototype.trim` whitespace set (WhiteSpace ∪
LineTerminator). -/
def isJsWhitespace (c : Char) : Bool :=
  let n := c.toNat
  n == 9 || n == 10 || n == 11 || n == 12 || n == 13 || n == 32 ||
  n == 160 || n == 0x1680 || (0x2000 ≤ n && n ≤ 0x200A) ||
  n == 0x2028 || n == 0x2029 || n == 0x202F || n == 0x205F ||
  n == 0x3000 || n == 0xFEFF

/-- Models `query.trim()`. -/
def jsTrim (s : String) : String :=
  ⟨((s.data.dropWhile isJsWhitespace).reverse.dropWhile isJsWhitespace).reverse⟩

/-- The number of non-whitespace characters of a string (the quantity the
claim is phrased in). -/
def nonWhitespaceCount (s : String) : ℕ :=
  (s.data.filter (fun c => !isJsWhitespace c)).length

/-- The UTF-16 code-unit length of a string (JavaScript `String.length`):
code points at or above 0x10000 are stored as surrogate pairs and count
as two units. -/
def utf16Length (s : String) : ℕ :=
  (s.data.map (fun c => if c.toNat < 65536 then 1 else 2)).sum

/-- The Nominatim request the effect issues: query with the regional bias
term appended, `jsonv2` format, candidate cap 8. -/
structure SearchRequest where
  q : String
  format : String
  limit : ℕ
deriving DecidableEq

/-- The request the search effect issues, or `none` when the guard makes
it return early without any network call. -/
def nominatimRequest (query : String) : Option SearchRequest :=
  if utf16Length (jsTrim query) < 3 then none
  else some { q := query ++ " Barcelona", format := "jsonv2", limit := 8 }

/-- The results the effect installs, given an oracle for the provider's
response to a request (the guard branch installs `[]` without calling
it). -/
def runSearch (nominatim : SearchRequest → List Place) (query : String) : List Place :=
  match nominatimRequest query with
  | none => []
  | some r => nominatim r

/-- Counterexample for C9 as stated: the query `"a b"` has only 2
non-whitespace characters, yet the code issues a request, because its
*trimmed length* is 3. -/
theorem nominatim_nonwhitespace_claim_false :
    nonWhitespaceCount "a b" = 2 ∧
    nominatimRequest "a b" =
      some { q := "a b Barcelona", format := "jsonv2", limit := 8 } := by
  constructor
  · decide
  · decide

/-- C9 (amended): for every query whose UTF-16 code-unit length *after
trimming leading/trailing whitespace* is under 3, the effect installs an
empty result list and issues no request; for every longer query it issues
exactly one request capped at 8 candidates with the `" Barcelona"`
regional bias appended to the query. -/
theorem nominatim_minlength_trimmed (query : String)
    (nominatim : SearchRequest → List Place) :
    (utf16Length (jsTrim query) < 3 →
      nominatimRequest query = none ∧ runSearch nominatim query = []) ∧
    (3 ≤ utf16Length (jsTrim query) →
      nominatimRequest query =
        some { q := query ++ " Barcelona", format := "jsonv2", limit := 8 } ∧
      runSearch nominatim query =
        nominatim { q := query ++ " Barcelona", format := "jsonv2", limit := 8 }) := by
  constructor
  · intro h
    have hr : nominatimRequest query = none := by
      unfold nominatimRequest
      rw [if_pos h]
    refine ⟨hr, ?_⟩
    unfold runSearch
    rw [hr]
  · intro h
    have hr : nominatimRequest query =
        some { q := query ++ " Barcelona", format := "jsonv2", limit := 8 } := by
      unfold nominatimRequest
      rw [if_neg (by omega)]
    refine ⟨hr, ?_⟩
    unfold runSearch
    rw [hr]

/-- Witness for the amended C9 at the concrete queries `" ab "` (trimmed
UTF-16 length 2: no request), `"abcd"` (request issued, cap 8, bias term)
and the single astral character `"😀"` (one character, but trimmed UTF-16
length 2 — a surrogate pair — so still no request, as in JavaScript). -/
theorem nominatim_minlength_trimmed_witness :
    (nominatimRequest " ab " = none ∧ runSearch (fun _ => []) " ab " = []) ∧
    nominatimRequest "abcd" =
      some { q := "abcd Barcelona", format := "jsonv2", limit := 8 } ∧
    (nominatimRequest "😀" = none ∧ runSearch (fun _ => []) "😀" = []) := by
  refine ⟨(nominatim_minlength_trimmed " ab " (fun _ => [])).1 (by decide),
    ((nominatim_minlength_trimmed "abcd" (fun _ => [])).2 (by decide)).1,
    (nominatim_minlength_trimmed "😀" (fun _ => [])).1 (by decide)⟩

/-! ## Calendar export (`toICS` / `exportICS`, claim C10)

The source builds `ics` by string concatenation: the VCALENDAR header
(BEGIN:VCALENDAR, VERSION:2.0, and the PRODID line), then
`Object.entries(plan).forEach(([date, stops]) => stops.forEach((s, idx) =>
ics += ...VEVENT block...))`, then the END:VCALENDAR footer, with
`esc = s => String(s||"").replace(/[,;\\]/g, ...)` escaping comma,
semicolon and backslash.  `exportICS()` calls `toICS(plan, tripName)`.
`exportICS` passes the whole `plan` — no filtering by the trip's
start/end dates.  The wall clock (`now`), the per-event entropy
(`Math.random()` in the UID) and JavaScript's number-to-string rendering
of coordinates are external inputs, passed as parameters. -/

/-- The `esc` helper: backslash-escape comma, semicolon and backslash. -/
def escICS (s : String) : String :=
  ⟨s.data.bind (fun c =>
    if c = ',' then ['\\', ',']
    else if c = ';' then ['\\', ';']
    else if c = '\\' then ['\\', '\\']
    else [c])⟩

/-- The global regex replace that drops every dash of the date key
(`date.replace` with the global dash pattern and empty replacement). -/
def removeDashes (s : String) : String := ⟨s.data.filter (fun c => c ≠ '-')⟩

/-- `s.replace(":","")` with a string pattern replaces only the *first*
occurrence. -/
def dropFirstColon : List Char → List Char
  | [] => []
  | c :: rest => if c = ':' then rest else c :: dropFirstColon rest

/-- One VEVENT block for stop `s` of day `date` at position `idx`.
`numStr` models JavaScript number-to-string rendering, `now` the DTSTAMP
wall-clock string, `rand` the `Math.random().toString(36).slice(2)` UID
entropy per (date, idx). -/
def icsEvent (numStr : ℝ → String) (now : String) (rand : String → ℕ → String)
    (tripName : String) (date : String) (idx : ℕ) (s : Stop) : String :=
  let nl := "\r\n"
  let dt := removeDashes date
  let startT := dt ++ "T" ++ (⟨dropFirstColon s.start.data⟩ : String) ++ "00"
  let endT := dt ++ "T" ++ (⟨dropFirstColon s.«end».data⟩ : String) ++ "00"
  let uid := date ++ "-" ++ toString idx ++ "-" ++ rand date idx ++ "@tripplanner"
  let summary := escICS tripName ++ ": " ++ escICS s.place.name
  let loc := numStr s.place.lat ++ "," ++ numStr s.place.lon ++ " " ++
    escICS (s.place.address.getD "")
  let desc := escICS (s.notes.getD "")
  "BEGIN:VEVENT" ++ nl ++ "DTSTAMP:" ++ now ++ nl ++ "UID:" ++ uid ++ nl ++
  "DTSTART:" ++ startT ++ nl ++ "DTEND:" ++ endT ++ nl ++ "SUMMARY:" ++ summary ++ nl ++
  "LOCATION:" ++ loc ++ nl ++ "DESCRIPTION:" ++ desc ++ nl ++ "END:VEVENT" ++ nl

/-- The VEVENT blocks appended by the nested `forEach` loops, in order:
every day key of the plan, every stop of the day. -/
def icsEvents (numStr : ℝ → String) (now : String) (rand : String → ℕ → String)
    (tripName : String) (plan : Plan) : List String :=
  plan.bind (fun e => e.2.enum.map (fun p => icsEvent numStr now rand tripName e.1 p.1 p.2))

/-- Direct translation of `toICS`: header, the appended event blocks, then
the footer. -/
def toICS (numStr : ℝ → String) (now : String) (rand : String → ℕ → String)
    (plan : Plan) (tripName : String) : String :=
  let nl := "\r\n"
  let header := "BEGIN:VCALENDAR" ++ nl ++ "VERSION:2.0" ++ nl ++ "PRODID:-//TripPlanner//EN" ++ nl
  (icsEvents numStr now rand tripName plan).foldl (fun acc ev => acc ++ ev) header ++
    ("END:VCALENDAR" ++ nl)

/-- C10: for every plan, the export emits exactly one VEVENT per stop of
every day key present — the total event count is the sum of the stop-list
lengths over all entries, with no filtering by the trip window (`toICS`
does not even receive the trip dates); for the empty plan the output is
exactly the calendar header and footer. -/
theorem toICS_one_event_per_stop (numStr : ℝ → String) (now : String)
    (rand : String → ℕ → String) (tripName : String) (plan : Plan) :
    (icsEvents numStr now rand tripName plan).length =
      (plan.map (fun e => e.2.length)).sum ∧
    toICS numStr now rand ([] : Plan) tripName =
      "BEGIN:VCALENDAR\r\nVERSION:2.0\r\nPRODID:-//TripPlanner//EN\r\nEND:VCALENDAR\r\n" := by
  constructor
  · unfold icsEvents
    rw [List.length_bind]
    simp only [Function.comp_def, List.length_map, List.enum_length]
  · rfl

/-! ## Share-link codec (claims C5, C6)

The source:
```js
function encodeForUrl(obj) {
  const json = JSON.stringify(obj);
  const base64 = btoa(unescape(encodeURIComponent(json)));
  return encodeURIComponent(base64);
}
function decodeFromUrlParam(s) {
  try {
    const base64 = decodeURIComponent(s);
    const json = decodeURIComponent(escape(atob(base64)));
    return JSON.parse(json);
  } catch { return null; }
}
```
All five inner functions are platform built-ins.  Strings are modelled as
lists of Unicode scalar values (`List ℕ`), byte strings as lists of
naturals below 256.

* `unescape(encodeURIComponent(json))` is the classic UTF-8-encode idiom:
  `encodeURIComponent` percent-encodes the UTF-8 bytes of the string and
  `unescape` turns every `%XX` back into the byte `XX`, so the composite
  is exactly `utf8Encode` (it throws on lone surrogates — the
  "encoding-breaking characters" — which the validity hypothesis below
  excludes).  Dually `decodeURIComponent(escape(bytes))` percent-encodes
  each byte and then strictly UTF-8-decodes the percent run, i.e. it is
  exactly `utf8Decode` (throwing, here `none`, on invalid UTF-8).
* `decodeURIComponent(s)` itself is modelled as `uriDecode`: scan `s`,
  turning each `%XX` group into a byte and each literal character into
  its UTF-8 bytes, then strictly UTF-8-decode the byte stream.  For
  scalar-valued inputs this agrees with the ECMAScript `Decode` abstract
  operation: literal characters never produce continuation-lead bytes, so
  the byte-level decode fails exactly where `Decode` throws `URIError`.
* `JSON.stringify` / `JSON.parse` stay abstract: parameters `stringify`
  and `parse` with the documented round-trip law as a hypothesis.
* `btoa` throws on code units above 255 (the input here is always a byte
  string) and `atob` on characters outside the base64 alphabet or
  misplaced padding; `none` models the throw. -/

/-- Uppercase hexadecimal digit character code (as `encodeURIComponent`
emits). -/
def hexDigit (n : ℕ) : ℕ := if n < 10 then 48 + n else 55 + n

/-- Value of a hexadecimal digit character, either case (as
`decodeURIComponent` accepts). -/
def hexVal (c : ℕ) : Option ℕ :=
  if 48 ≤ c ∧ c ≤ 57 then some (c - 48)
  else if 65 ≤ c ∧ c ≤ 70 then some (c - 55)
  else if 97 ≤ c ∧ c ≤ 102 then some (c - 87)
  else none

/-- A Unicode scalar value: in range and not a lone surrogate.  Strings
containing lone surrogates are exactly the "encoding-breaking" ones:
`encodeURIComponent` throws `URIError` on them. -/
def ValidScalar (c : ℕ) : Prop := c < 1114112 ∧ (c < 55296 ∨ 57344 ≤ c)

instance (c : ℕ) : Decidable (ValidScalar c) := by
  unfold ValidScalar
  infer_instance

/-- UTF-8 encoding of one scalar value. -/
def utf8EncodeChar (c : ℕ) : List ℕ :=
  if c < 128 then [c]
  else if c < 2048 then [192 + c / 64, 128 + c % 64]
  else if c < 65536 then [224 + c / 4096, 128 + c / 64 % 64, 128 + c % 64]
  else [240 + c / 262144, 128 + c / 4096 % 64, 128 + c / 64 % 64, 128 + c % 64]

/-- UTF-8 encoding of a string of scalar values (the composite
`unescape(encodeURIComponent(json))`). -/
def utf8Encode (l : List ℕ) : List ℕ := l.flatMap utf8EncodeChar

/-- The number of continuation bytes a UTF-8 lead byte announces (3 for
anything at or above 0xF0; invalid leads are rejected by `utf8Scalar`). -/
def utf8Len (b : ℕ) : ℕ :=
  if b < 128 then 0
  else if 192 ≤ b ∧ b < 224 then 1
  else if 224 ≤ b ∧ b < 240 then 2
  else 3

/-- Decodes one scalar from a lead byte and exactly its continuation
bytes: rejects invalid leads, bad continuation bytes, truncation, overlong
forms, surrogates and out-of-range values, as the ECMAScript `Decode`
operation does. -/
def utf8Scalar (b : ℕ) (cont : List ℕ) : Option ℕ :=
  if b < 128 then
    match cont with
    | [] => some b
    | _ => none
  else if 192 ≤ b ∧ b < 224 then
    match cont with
    | [b2] =>
      if 128 ≤ b2 ∧ b2 < 192 then
        if 128 ≤ (b - 192) * 64 + (b2 - 128) then some ((b - 192) * 64 + (b2 - 128))
        else none
      else none
    | _ => none
  else if 224 ≤ b ∧ b < 240 then
    match cont with
    | [b2, b3] =>
      if (128 ≤ b2 ∧ b2 < 192) ∧ (128 ≤ b3 ∧ b3 < 192) then
        if 2048 ≤ (b - 224) * 4096 + (b2 - 128) * 64 + (b3 - 128) ∧
            ((b - 224) * 4096 + (b2 - 128) * 64 + (b3 - 128) < 55296 ∨
              57344 ≤ (b - 224) * 4096 + (b2 - 128) * 64 + (b3 - 128)) then
          some ((b - 224) * 4096 + (b2 - 128) * 64 + (b3 - 128))
        else none
      else none
    | _ => none
  else if 240 ≤ b ∧ b < 248 then
    match cont with
    | [b2, b3, b4] =>
      if (128 ≤ b2 ∧ b2 < 192) ∧ (128 ≤ b3 ∧ b3 < 192) ∧ (128 ≤ b4 ∧ b4 < 192) then
        if 65536 ≤ (b - 240) * 262144 + (b2 - 128) * 4096 + (b3 - 128) * 64 + (b4 - 128) ∧
            (b - 240) * 262144 + (b2 - 128) * 4096 + (b3 - 128) * 64 + (b4 - 128) < 1114112 then
          some ((b - 240) * 262144 + (b2 - 128) * 4096 + (b3 - 128) * 64 + (b4 - 128))
        else none
      else none
    | _ => none
  else none

/-- Strict UTF-8 decoding of a byte list (the composite
`decodeURIComponent(escape(bytes))`): group the stream lead byte by lead
byte via `utf8Scalar`, failing (`none`) wherever the ECMAScript `Decode`
operation throws `URIError`. -/
def utf8Decode : List ℕ → Option (List ℕ)
  | [] => some []
  | b :: rest =>
    match utf8Scalar b (rest.take (utf8Len b)) with
    | some v => (utf8Decode (rest.drop (utf8Len b))).map (fun t => v :: t)
    | none => none
termination_by l => l.length
decreasing_by simp_wf; omega

/-- The base64 alphabet character for a sextet. -/
def b64Char (s : ℕ) : ℕ :=
  if s < 26 then 65 + s
  else if s < 52 then 71 + s
  else if s < 62 then s - 4
  else if s = 62 then 43
  else 47

/-- The sextet of a base64 alphabet character (`none` for characters
outside the alphabet — `atob` throws on those). -/
def b64Val (c : ℕ) : Option ℕ :=
  if 65 ≤ c ∧ c ≤ 90 then some (c - 65)
  else if 97 ≤ c ∧ c ≤ 122 then some (c - 71)
  else if 48 ≤ c ∧ c ≤ 57 then some (c + 4)
  else if c = 43 then some 62
  else if c = 47 then some 63
  else none

/-- Models `btoa`: base64-encode a byte string three bytes at a time, with
`=` (61) padding. -/
def btoaFn : List ℕ → List ℕ
  | [] => []
  | [a] => [b64Char (a / 4), b64Char (a % 4 * 16), 61, 61]
  | [a, b] => [b64Char (a / 4), b64Char (a % 4 * 16 + b / 16), b64Char (b % 16 * 4), 61]
  | a :: b :: c :: rest =>
    b64Char (a / 4) :: b64Char (a % 4 * 16 + b / 16) :: b64Char (b % 16 * 4 + c / 64) ::
      b64Char (c % 64) :: btoaFn rest

/-- Models `atob` on canonical (padded) base64: four characters at a time,
rejecting characters outside the alphabet, misplaced padding, and lengths
that are not a multiple of four. -/
def atobFn : List ℕ → Option (List ℕ)
  | [] => some []
  | c1 :: c2 :: c3 :: c4 :: rest =>
    match b64Val c1, b64Val c2 with
    | some s1, some s2 =>
      if c3 = 61 then
        if c4 = 61 ∧ rest = [] then some [s1 * 4 + s2 / 16] else none
      else
        match b64Val c3 with
        | some s3 =>
          if c4 = 61 then
            if rest = [] then some [s1 * 4 + s2 / 16, s2 % 16 * 16 + s3 / 4] else none
          else
            match b64Val c4 with
            | some s4 =>
              (atobFn rest).map (fun bs =>
                (s1 * 4 + s2 / 16) :: (s2 % 16 * 16 + s3 / 4) :: (s3 % 4 * 64 + s4) :: bs)
            | none => none
        | none => none
    | _, _ => none
  | _ => none

/-- The characters `encodeURIComponent` leaves unescaped. -/
def uriUnreserved (c : ℕ) : Bool :=
  decide ((65 ≤ c ∧ c ≤ 90) ∨ (97 ≤ c ∧ c ≤ 122) ∨ (48 ≤ c ∧ c ≤ 57) ∨
    c = 45 ∨ c = 95 ∨ c = 46 ∨ c = 33 ∨ c = 126 ∨ c = 42 ∨ c = 39 ∨ c = 40 ∨ c = 41)

/-- `encodeURIComponent` on one character: unreserved characters pass
through, everything else becomes `%XX` groups over its UTF-8 bytes
(37 is the `%` character). -/
def pctEncodeChar (c : ℕ) : List ℕ :=
  if uriUnreserved c then [c]
  else (utf8EncodeChar c).flatMap (fun b => [37, hexDigit (b / 16), hexDigit (b % 16)])

/-- Models `encodeURIComponent` on a scalar-valued string. -/
def pctEncode (l : List ℕ) : List ℕ := l.flatMap pctEncodeChar

/-- How many following characters a percent sign consumes (two hex
digits); other characters consume none. -/
def pctLen (c : ℕ) : ℕ := if c = 37 then 2 else 0

/-- The bytes one group of a percent-encoded string contributes: `%XX`
yields the byte `XX` (rejecting bad hex or truncation, as
`decodeURIComponent` throws), a literal character its UTF-8 bytes. -/
def pctGroupBytes (c : ℕ) (args : List ℕ) : Option (List ℕ) :=
  if c = 37 then
    match args with
    | [a, b] =>
      match hexVal a, hexVal b with
      | some x, some y => some [x * 16 + y]
      | _, _ => none
    | _ => none
  else some (utf8EncodeChar c)

/-- The byte stream of a percent-encoded string, group by group. -/
def pctToBytes : List ℕ → Option (List ℕ)
  | [] => some []
  | c :: rest =>
    match pctGroupBytes c (rest.take (pctLen c)) with
    | some bs => (pctToBytes (rest.drop (pctLen c))).map (fun t => bs ++ t)
    | none => none
termination_by l => l.length
decreasing_by simp_wf; omega

/-- Models `decodeURIComponent`: percent groups to bytes, then strict
UTF-8 decoding of the byte stream. -/
def uriDecode (l : List ℕ) : Option (List ℕ) := (pctToBytes l).bind utf8Decode

/-- Direct translation of `encodeForUrl`, with `JSON.stringify` abstract:
percent-encode the base64 of the UTF-8 bytes of the serialised object. -/
def encodeForUrl {α : Type} (stringify : α → List ℕ) (obj : α) : List ℕ :=
  pctEncode (btoaFn (utf8Encode (stringify obj)))

/-- Direct translation of `decodeFromUrlParam`, with `JSON.parse`
abstract: the `try`/`catch` that returns `null` on any throw becomes the
`Option` chain (`none` = the `catch` branch). -/
def decodeFromUrlParam {α : Type} (parse : List ℕ → Option α) (s : List ℕ) : Option α :=
  (uriDecode s).bind (fun base64 =>
    (atobFn base64).bind (fun bytes =>
      (utf8Decode bytes).bind parse))

theorem hexVal_hexDigit : ∀ x, x < 16 → hexVal (hexDigit x) = some x := by decide

theorem b64Val_b64Char : ∀ s, s < 64 → b64Val (b64Char s) = some s := by decide

theorem b64Char_lt128 : ∀ s, s < 64 → b64Char s < 128 := by decide

theorem b64Char_ne61 : ∀ s, s < 64 → b64Char s ≠ 61 := by decide

theorem utf8EncodeChar_lt256 {c : ℕ} (h : c < 1114112) :
    ∀ b ∈ utf8EncodeChar c, b < 256 := by
  intro b hb
  unfold utf8EncodeChar at hb
  split_ifs at hb with h1 h2 h3 <;>
    simp only [List.mem_cons, List.mem_singleton, List.not_mem_nil, or_false] at hb <;>
    omega

theorem utf8Encode_lt256 {l : List ℕ} (h : ∀ c ∈ l, ValidScalar c) :
    ∀ b ∈ utf8Encode l, b < 256 := by
  intro b hb
  unfold utf8Encode at hb
  rw [List.mem_flatMap] at hb
  obtain ⟨c, hc, hbc⟩ := hb
  exact utf8EncodeChar_lt256 (h c hc).1 b hbc

theorem utf8Decode_nil : utf8Decode [] = some [] := by
  rw [utf8Decode.eq_def]

theorem utf8Decode_cons_eq (b : ℕ) (rest : List ℕ) :
    utf8Decode (b :: rest) =
      match utf8Scalar b (rest.take (utf8Len b)) with
      | some v => (utf8Decode (rest.drop (utf8Len b))).map (fun t => v :: t)
      | none => none := by
  rw [utf8Decode.eq_def]

theorem utf8Decode_encodeChar {c : ℕ} (h : ValidScalar c) (t : List ℕ) :
    utf8Decode (utf8EncodeChar c ++ t) = (utf8Decode t).map (fun u => c :: u) := by
  obtain ⟨hlt, hsur⟩ := h
  by_cases h1 : c < 128
  · have he : utf8EncodeChar c = [c] := by unfold utf8EncodeChar; rw [if_pos h1]
    rw [he, List.singleton_append, utf8Decode_cons_eq]
    have hlen : utf8Len c = 0 := by unfold utf8Len; rw [if_pos h1]
    rw [hlen, List.take_zero, List.drop_zero]
    have hs : utf8Scalar c [] = some c := by unfold utf8Scalar; rw [if_pos h1]
    rw [hs]
  · by_cases h2 : c < 2048
    · have he : utf8EncodeChar c = [192 + c / 64, 128 + c % 64] := by
        unfold utf8EncodeChar; rw [if_neg h1, if_pos h2]
      rw [he]
      rw [show ([192 + c / 64, 128 + c % 64] : List ℕ) ++ t =
        (192 + c / 64) :: (128 + c % 64) :: t from rfl]
      rw [utf8Decode_cons_eq]
      have hlen : utf8Len (192 + c / 64) = 1 := by
        unfold utf8Len; rw [if_neg (by omega), if_pos (by omega)]
      rw [hlen]
      rw [show ((128 + c % 64) :: t).take 1 = [128 + c % 64] from by simp]
      rw [show ((128 + c % 64) :: t).drop 1 = t from by simp]
      have hs : utf8Scalar (192 + c / 64) [128 + c % 64] = some c := by
        unfold utf8Scalar
        rw [if_neg (by omega), if_pos (by omega)]
        show (if 128 ≤ 128 + c % 64 ∧ 128 + c % 64 < 192 then
                if 128 ≤ (192 + c / 64 - 192) * 64 + (128 + c % 64 - 128) then
                  some ((192 + c / 64 - 192) * 64 + (128 + c % 64 - 128))
                else none
              else none) = some c
        rw [if_pos (by omega), if_pos (by omega)]
        congr 1
        omega
      rw [hs]
    · by_cases h3 : c < 65536
      · have he : utf8EncodeChar c = [224 + c / 4096, 128 + c / 64 % 64, 128 + c % 64] := by
          unfold utf8EncodeChar; rw [if_neg h1, if_neg h2, if_pos h3]
        rw [he]
        rw [show ([224 + c / 4096, 128 + c / 64 % 64, 128 + c % 64] : List ℕ) ++ t =
          (224 + c / 4096) :: (128 + c / 64 % 64) :: (128 + c % 64) :: t from rfl]
        rw [utf8Decode_cons_eq]
        have hlen : utf8Len (224 + c / 4096) = 2 := by
          unfold utf8Len; rw [if_neg (by omega), if_neg (by omega), if_pos (by omega)]
        rw [hlen]
        rw [show ((128 + c / 64 % 64) :: (128 + c % 64) :: t).take 2 =
          [128 + c / 64 % 64, 128 + c % 64] from by simp]
        rw [show ((128 + c / 64 % 64) :: (128 + c % 64) :: t).drop 2 = t from by simp]
        have hs : utf8Scalar (224 + c / 4096) [128 + c / 64 % 64, 128 + c % 64] = some c := by
          unfold utf8Scalar
          rw [if_neg (by omega), if_neg (by omega), if_pos (by omega)]
          show (if (128 ≤ 128 + c / 64 % 64 ∧ 128 + c / 64 % 64 < 192) ∧
                  (128 ≤ 128 + c % 64 ∧ 128 + c % 64 < 192) then
                  if 2048 ≤ (224 + c / 4096 - 224) * 4096 + (128 + c / 64 % 64 - 128) * 64 +
                      (128 + c % 64 - 128) ∧
                    ((224 + c / 4096 - 224) * 4096 + (128 + c / 64 % 64 - 128) * 64 +
                        (128 + c % 64 - 128) < 55296 ∨
                      57344 ≤ (224 + c / 4096 - 224) * 4096 + (128 + c / 64 % 64 - 128) * 64 +
                        (128 + c % 64 - 128)) then
                    some ((224 + c / 4096 - 224) * 4096 + (128 + c / 64 % 64 - 128) * 64 +
                      (128 + c % 64 - 128))
                  else none
                else none) = some c
          rw [if_pos (by omega), if_pos (by omega)]
          congr 1
          omega
        rw [hs]
      · have he : utf8EncodeChar c =
            [240 + c / 262144, 128 + c / 4096 % 64, 128 + c / 64 % 64, 128 + c % 64] := by
          unfold utf8EncodeChar; rw [if_neg h1, if_neg h2, if_neg h3]
        rw [he]
        rw [show ([240 + c / 262144, 128 + c / 4096 % 64, 128 + c / 64 % 64,
            128 + c % 64] : List ℕ) ++ t =
          (240 + c / 262144) :: (128 + c / 4096 % 64) :: (128 + c / 64 % 64) ::
            (128 + c % 64) :: t from rfl]
        rw [utf8Decode_cons_eq]
        have hlen : utf8Len (240 + c / 262144) = 3 := by
          unfold utf8Len
          rw [if_neg (by omega), if_neg (by omega), if_neg (by omega)]
        rw [hlen]
        rw [show ((128 + c / 4096 % 64) :: (128 + c / 64 % 64) :: (128 + c % 64) :: t).take 3 =
          [128 + c / 4096 % 64, 128 + c / 64 % 64, 128 + c % 64] from by simp]
        rw [show ((128 + c / 4096 % 64) :: (128 + c / 64 % 64) :: (128 + c % 64) :: t).drop 3 =
          t from by simp]
        have hs : utf8Scalar (240 + c / 262144)
            [128 + c / 4096 % 64, 128 + c / 64 % 64, 128 + c % 64] = some c := by
          unfold utf8Scalar
          rw [if_neg (by omega), if_neg (by omega), if_neg (by omega), if_pos (by omega)]
          show (if (128 ≤ 128 + c / 4096 % 64 ∧ 128 + c / 4096 % 64 < 192) ∧
                  (128 ≤ 128 + c / 64 % 64 ∧ 128 + c / 64 % 64 < 192) ∧
                  (128 ≤ 128 + c % 64 ∧ 128 + c % 64 < 192) then
                  if 65536 ≤ (240 + c / 262144 - 240) * 262144 +
                      (128 + c / 4096 % 64 - 128) * 4096 + (128 + c / 64 % 64 - 128) * 64 +
                      (128 + c % 64 - 128) ∧
                    (240 + c / 262144 - 240) * 262144 + (128 + c / 4096 % 64 - 128) * 4096 +
                      (128 + c / 64 % 64 - 128) * 64 + (128 + c % 64 - 128) < 1114112 then
                    some ((240 + c / 262144 - 240) * 262144 + (128 + c / 4096 % 64 - 128) * 4096 +
                      (128 + c / 64 % 64 - 128) * 64 + (128 + c % 64 - 128))
                  else none
                else none) = some c
          rw [if_pos (by omega), if_pos (by omega)]
          congr 1
          omega
        rw [hs]

theorem utf8Decode_encode {l : List ℕ} (h : ∀ c ∈ l, ValidScalar c) :
    utf8Decode (utf8Encode l) = some l := by
  induction l with
  | nil => exact utf8Decode_nil
  | cons c tl ih =>
    rw [show utf8Encode (c :: tl) = utf8EncodeChar c ++ utf8Encode tl from by
      unfold utf8Encode; rw [List.flatMap_cons]]
    rw [utf8Decode_encodeChar (h c (by simp)) _]
    rw [ih (fun d hd => h d (by simp [hd]))]
    rfl

theorem utf8Decode_ascii {l : List ℕ} (h : ∀ c ∈ l, c < 128) :
    utf8Decode l = some l := by
  induction l with
  | nil => exact utf8Decode_nil
  | cons c tl ih =>
    have hc : c < 128 := h c (by simp)
    rw [utf8Decode_cons_eq]
    have hlen : utf8Len c = 0 := by unfold utf8Len; rw [if_pos hc]
    rw [hlen, List.take_zero, List.drop_zero]
    have hs : utf8Scalar c [] = some c := by unfold utf8Scalar; rw [if_pos hc]
    rw [hs, ih (fun d hd => h d (by simp [hd]))]
    rfl

theorem btoaFn_one (a : ℕ) :
    btoaFn [a] = [b64Char (a / 4), b64Char (a % 4 * 16), 61, 61] := rfl

theorem btoaFn_two (a b : ℕ) : btoaFn [a, b] =
    [b64Char (a / 4), b64Char (a % 4 * 16 + b / 16), b64Char (b % 16 * 4), 61] := rfl

theorem btoaFn_cons3 (a b c : ℕ) (rest : List ℕ) : btoaFn (a :: b :: c :: rest) =
    b64Char (a / 4) :: b64Char (a % 4 * 16 + b / 16) :: b64Char (b % 16 * 4 + c / 64) ::
      b64Char (c % 64) :: btoaFn rest := rfl

theorem atobFn_cons4 (c1 c2 c3 c4 : ℕ) (rest : List ℕ) :
    atobFn (c1 :: c2 :: c3 :: c4 :: rest) =
    (match b64Val c1, b64Val c2 with
    | some s1, some s2 =>
      if c3 = 61 then
        if c4 = 61 ∧ rest = [] then some [s1 * 4 + s2 / 16] else none
      else
        match b64Val c3 with
        | some s3 =>
          if c4 = 61 then
            if rest = [] then some [s1 * 4 + s2 / 16, s2 % 16 * 16 + s3 / 4] else none
          else
            match b64Val c4 with
            | some s4 =>
              (atobFn rest).map (fun bs =>
                (s1 * 4 + s2 / 16) :: (s2 % 16 * 16 + s3 / 4) :: (s3 % 4 * 64 + s4) :: bs)
            | none => none
        | none => none
    | _, _ => none) := rfl

theorem atobFn_enc1 (x y : ℕ) (hx : x < 64) (hy : y < 64) :
    atobFn [b64Char x, b64Char y, 61, 61] = some [x * 4 + y / 16] := by
  rw [atobFn_cons4, b64Val_b64Char _ hx, b64Val_b64Char _ hy]
  rfl

theorem atobFn_enc2 (x y z : ℕ) (hx : x < 64) (hy : y < 64) (hz : z < 64) :
    atobFn [b64Char x, b64Char y, b64Char z, 61] =
      some [x * 4 + y / 16, y % 16 * 16 + z / 4] := by
  rw [atobFn_cons4, b64Val_b64Char _ hx, b64Val_b64Char _ hy]
  show (if b64Char z = 61 then _ else _) = _
  rw [if_neg (b64Char_ne61 _ hz), b64Val_b64Char _ hz]
  rfl

theorem atobFn_enc3 (x y z w : ℕ) (rest : List ℕ)
    (hx : x < 64) (hy : y < 64) (hz : z < 64) (hw : w < 64) :
    atobFn (b64Char x :: b64Char y :: b64Char z :: b64Char w :: rest) =
      (atobFn rest).map (fun bs =>
        (x * 4 + y / 16) :: (y % 16 * 16 + z / 4) :: (z % 4 * 64 + w) :: bs) := by
  rw [atobFn_cons4, b64Val_b64Char _ hx, b64Val_b64Char _ hy]
  show (if b64Char z = 61 then _ else _) = _
  rw [if_neg (b64Char_ne61 _ hz), b64Val_b64Char _ hz]
  show (if b64Char w = 61 then _ else _) = _
  rw [if_neg (b64Char_ne61 _ hw), b64Val_b64Char _ hw]

theorem btoaFn_lt128 (bytes : List ℕ) (hb : ∀ b ∈ bytes, b < 256) :
    ∀ ch ∈ btoaFn bytes, ch < 128 := by
  have H : ∀ n (bytes : List ℕ), bytes.length ≤ n → (∀ b ∈ bytes, b < 256) →
      ∀ ch ∈ btoaFn bytes, ch < 128 := by
    intro n
    induction n with
    | zero =>
      intro bytes hlen _
      match bytes with
      | [] => intro ch hch; simp [btoaFn] at hch
      | b :: _ => simp at hlen
    | succ n ih =>
      intro bytes hlen hb
      match bytes with
      | [] => intro ch hch; simp [btoaFn] at hch
      | [a] =>
        have ha := hb a (by simp)
        intro ch hch
        rw [btoaFn_one] at hch
        simp only [List.mem_cons, List.not_mem_nil, or_false] at hch
        rcases hch with h | h | h | h <;> subst h
        · exact b64Char_lt128 _ (by omega)
        · exact b64Char_lt128 _ (by omega)
        · omega
        · omega
      | [a, b] =>
        have ha := hb a (by simp)
        have hbb := hb b (by simp)
        intro ch hch
        rw [btoaFn_two] at hch
        simp only [List.mem_cons, List.not_mem_nil, or_false] at hch
        rcases hch with h | h | h | h <;> subst h
        · exact b64Char_lt128 _ (by omega)
        · exact b64Char_lt128 _ (by omega)
        · exact b64Char_lt128 _ (by omega)
        · omega
      | a :: b :: c :: rest =>
        have ha := hb a (by simp)
        have hbb := hb b (by simp)
        have hc := hb c (by simp)
        intro ch hch
        rw [btoaFn_cons3] at hch
        simp only [List.mem_cons] at hch
        rcases hch with h | h | h | h | h
        · subst h; exact b64Char_lt128 _ (by omega)
        · subst h; exact b64Char_lt128 _ (by omega)
        · subst h; exact b64Char_lt128 _ (by omega)
        · subst h; exact b64Char_lt128 _ (by omega)
        · exact ih rest (by simp at hlen; omega) (fun x hx => hb x (by simp [hx])) ch h
  exact H bytes.length bytes le_rfl hb

theorem atobFn_btoaFn (bytes : List ℕ) (hb : ∀ b ∈ bytes, b < 256) :
    atobFn (btoaFn bytes) = some bytes := by
  have H : ∀ n (bytes : List ℕ), bytes.length ≤ n → (∀ b ∈ bytes, b < 256) →
      atobFn (btoaFn bytes) = some bytes := by
    intro n
    induction n with
    | zero =>
      intro bytes hlen _
      match bytes with
      | [] => rfl
      | b :: _ => simp at hlen
    | succ n ih =>
      intro bytes hlen hb
      match bytes with
      | [] => rfl
      | [a] =>
        have ha := hb a (by simp)
        rw [btoaFn_one, atobFn_enc1 _ _ (by omega) (by omega)]
        simp only [Option.some.injEq, List.cons.injEq, and_true]
        omega
      | [a, b] =>
        have ha := hb a (by simp)
        have hbb := hb b (by simp)
        rw [btoaFn_two, atobFn_enc2 _ _ _ (by omega) (by omega) (by omega)]
        simp only [Option.some.injEq, List.cons.injEq, and_true]
        constructor
        · omega
        · omega
      | a :: b :: c :: rest =>
        have ha := hb a (by simp)
        have hbb := hb b (by simp)
        have hc := hb c (by simp)
        rw [btoaFn_cons3,
          atobFn_enc3 _ _ _ _ _ (by omega) (by omega) (by omega) (by omega)]
        rw [ih rest (by simp at hlen; omega) (fun x hx => hb x (by simp [hx]))]
        simp only [Option.map_some', Option.some.injEq, List.cons.injEq, and_true]
        refine ⟨by omega, by omega, by omega⟩
  exact H bytes.length bytes le_rfl hb

theorem uriUnreserved_37 : uriUnreserved 37 = false := by decide

theorem pctToBytes_nil : pctToBytes [] = some [] := by
  rw [pctToBytes.eq_def]

theorem pctToBytes_cons_eq (c : ℕ) (rest : List ℕ) :
    pctToBytes (c :: rest) =
      match pctGroupBytes c (rest.take (pctLen c)) with
      | some bs => (pctToBytes (rest.drop (pctLen c))).map (fun t => bs ++ t)
      | none => none := by
  rw [pctToBytes.eq_def]

theorem pctToBytes_encodeChar {c : ℕ} (h : c < 128) (t : List ℕ) :
    pctToBytes (pctEncodeChar c ++ t) = (pctToBytes t).map (fun u => c :: u) := by
  by_cases hu : uriUnreserved c = true
  · have hc37 : ¬ c = 37 := by
      intro hc
      subst hc
      rw [uriUnreserved_37] at hu
      exact absurd hu (by decide)
    rw [show pctEncodeChar c = [c] from by unfold pctEncodeChar; rw [if_pos hu]]
    rw [List.singleton_append, pctToBytes_cons_eq]
    have hlen : pctLen c = 0 := by unfold pctLen; rw [if_neg hc37]
    rw [hlen, List.take_zero, List.drop_zero]
    have hg : pctGroupBytes c [] = some [c] := by
      unfold pctGroupBytes
      rw [if_neg hc37]
      rw [show utf8EncodeChar c = [c] from by unfold utf8EncodeChar; rw [if_pos h]]
    rw [hg]
    rfl
  · have henc : pctEncodeChar c = [37, hexDigit (c / 16), hexDigit (c % 16)] := by
      unfold pctEncodeChar
      rw [if_neg hu]
      rw [show utf8EncodeChar c = [c] from by unfold utf8EncodeChar; rw [if_pos h]]
      simp
    rw [henc]
    rw [show ([37, hexDigit (c / 16), hexDigit (c % 16)] : List ℕ) ++ t =
      37 :: hexDigit (c / 16) :: hexDigit (c % 16) :: t from rfl]
    rw [pctToBytes_cons_eq]
    have hlen : pctLen 37 = 2 := rfl
    rw [hlen]
    rw [show (hexDigit (c / 16) :: hexDigit (c % 16) :: t).take 2 =
      [hexDigit (c / 16), hexDigit (c % 16)] from by simp]
    rw [show (hexDigit (c / 16) :: hexDigit (c % 16) :: t).drop 2 = t from by simp]
    have hg : pctGroupBytes 37 [hexDigit (c / 16), hexDigit (c % 16)] = some [c] := by
      unfold pctGroupBytes
      rw [if_pos rfl]
      show (match hexVal (hexDigit (c / 16)), hexVal (hexDigit (c % 16)) with
            | some x, some y => some [x * 16 + y]
            | _, _ => none) = some [c]
      rw [hexVal_hexDigit _ (by omega), hexVal_hexDigit _ (by omega)]
      show some [c / 16 * 16 + c % 16] = some [c]
      have : c / 16 * 16 + c % 16 = c := by omega
      rw [this]
    rw [hg]
    rfl

theorem pctToBytes_encode {l : List ℕ} (h : ∀ c ∈ l, c < 128) :
    pctToBytes (pctEncode l) = some l := by
  induction l with
  | nil => exact pctToBytes_nil
  | cons c tl ih =>
    rw [show pctEncode (c :: tl) = pctEncodeChar c ++ pctEncode tl from by
      unfold pctEncode; rw [List.flatMap_cons]]
    rw [pctToBytes_encodeChar (h c (by simp)) _]
    rw [ih (fun d hd => h d (by simp [hd]))]
    rfl

/-! ## Claim C5 — the share-link round trip -/

/-- C5: for every itinerary payload whose serialisation contains no
encoding-breaking characters (no lone surrogates — the inputs on which
`encodeURIComponent` would throw), decoding the share parameter produced
by encoding reproduces the payload exactly.  `JSON.stringify`/`JSON.parse`
are abstract parameters constrained only by their round-trip law; the
percent, base64 and UTF-8 layers are concrete. -/
theorem decode_encode_roundtrip {α : Type} (stringify : α → List ℕ)
    (parse : List ℕ → Option α) (hinv : ∀ y, parse (stringify y) = some y)
    (x : α) (hvalid : ∀ c ∈ stringify x, ValidScalar c) :
    decodeFromUrlParam parse (encodeForUrl stringify x) = some x := by
  have hbytes : ∀ b ∈ utf8Encode (stringify x), b < 256 := utf8Encode_lt256 hvalid
  have hchars : ∀ ch ∈ btoaFn (utf8Encode (stringify x)), ch < 128 :=
    btoaFn_lt128 _ hbytes
  unfold encodeForUrl decodeFromUrlParam uriDecode
  rw [pctToBytes_encode hchars]
  simp only [Option.some_bind]
  rw [utf8Decode_ascii hchars]
  simp only [Option.some_bind]
  rw [atobFn_btoaFn _ hbytes]
  simp only [Option.some_bind]
  rw [utf8Decode_encode hvalid]
  simp only [Option.some_bind]
  exact hinv x

/-- A degenerate one-value payload type for the round-trip witness: its
serialisation is the two-character string with the brace code points. -/
def unitStringify : Unit → List ℕ := fun _ => [123, 125]

/-- The matching parser for `unitStringify`. -/
def unitParse : List ℕ → Option Unit :=
  fun l => if l = [123, 125] then some () else none

/-- Witness for C5: the concrete round trip at the one-value payload. -/
theorem decode_encode_roundtrip_witness :
    decodeFromUrlParam unitParse (encodeForUrl unitStringify ()) = some () := by
  exact decode_encode_roundtrip unitStringify unitParse (by decide) () (by decide)

/-! ## Import from `?data=` (claim C6)

The effect:
```js
const encoded = params.get("data");
if (!encoded) return;
const incoming = decodeFromUrlParam(encoded);
if (!incoming) return;
setTripName(incoming.tripName ?? tripName);
setStartDate(incoming.startDate ?? startDate);
setEndDate(incoming.endDate ?? endDate);
setPlan(incoming.plan ?? {});
if (incoming.selectedDay) setSelectedDay(incoming.selectedDay);
if (incoming.routeMode) setRouteMode(incoming.routeMode);
if (typeof incoming.useHotelStart === "boolean") setUseHotelStart(incoming.useHotelStart);
if (typeof incoming.useHotelEnd === "boolean") setUseHotelEnd(incoming.useHotelEnd);
if (incoming.hotel) setHotel(incoming.hotel);
```
A failed decode (`incoming === null`) returns before any setter runs, so
the whole itinerary state is untouched. -/

/-- The itinerary state of the page component (the fields persisted to
storage and replaced by an import). -/
structure AppState where
  tripName : String
  startDate : String
  endDate : String
  selectedDay : String
  plan : Plan
  routeMode : RouteMode
  hotel : Option Place
  useHotelStart : Bool
  useHotelEnd : Bool

/-- A decoded share payload: every field optional (absent or falsy fields
leave — or for the plan, reset — the current state). -/
structure Incoming where
  tripName : Option String
  startDate : Option String
  endDate : Option String
  selectedDay : Option String
  plan : Option Plan
  routeMode : Option RouteMode
  hotel : Option Place
  useHotelStart : Option Bool
  useHotelEnd : Option Bool

/-- The setter cascade run on a successfully decoded payload. -/
def applyIncoming (st : AppState) (inc : Incoming) : AppState :=
  { tripName := inc.tripName.getD st.tripName
    startDate := inc.startDate.getD st.startDate
    endDate := inc.endDate.getD st.endDate
    plan := inc.plan.getD []
    selectedDay := inc.selectedDay.getD st.selectedDay
    routeMode := inc.routeMode.getD st.routeMode
    useHotelStart := inc.useHotelStart.getD st.useHotelStart
    useHotelEnd := inc.useHotelEnd.getD st.useHotelEnd
    hotel := match inc.hotel with
      | some h => some h
      | none => st.hotel }

/-- The whole import effect: `none` for the `?data=` parameter models an
absent parameter; a decode failure leaves the state untouched. -/
def importFromUrl (parse : List ℕ → Option Incoming) (st : AppState)
    (dataParam : Option (List ℕ)) : AppState :=
  match dataParam with
  | none => st
  | some encoded =>
    match decodeFromUrlParam parse encoded with
    | none => st
    | some incoming => applyIncoming st incoming

/-! ## Claim C6 — malformed share payloads import nothing -/

/-- C6: for every malformed share-payload string — one on which the decode
chain fails (`decodeFromUrlParam` is a total function into `Option`, so no
exception can pass the caller; `none` is the `catch` branch) — the import
effect leaves the itinerary state entirely unchanged. -/
theorem import_noop_on_decode_failure (parse : List ℕ → Option Incoming)
    (st : AppState) (s : List ℕ)
    (hmal : decodeFromUrlParam parse s = none) :
    importFromUrl parse st (some s) = st := by
  unfold importFromUrl
  show (match decodeFromUrlParam parse s with
        | none => st
        | some incoming => applyIncoming st incoming) = st
  rw [hmal]

/-- A payload parser that accepts anything (so the failure in the witness
comes from the malformed wire string, not from the JSON layer). -/
def anyIncomingParse : List ℕ → Option Incoming :=
  fun _ => some ⟨none, none, none, none, none, none, none, none, none⟩

/-- The component's default state (the fallback values in `App.js`). -/
def defaultAppState : AppState :=
  ⟨"Barcelona, September 2025", "2025-09-01", "2025-09-07", "2025-09-01", [],
    RouteMode.foot, none, true, true⟩

/-- Witness for C6: the lone `%` string (code 37) is rejected by the
percent decoder and the state survives unchanged. -/
theorem import_noop_on_decode_failure_witness :
    importFromUrl anyIncomingParse defaultAppState (some [37]) = defaultAppState := by
  have hmal : decodeFromUrlParam anyIncomingParse [37] = none := by
    unfold decodeFromUrlParam uriDecode
    rw [pctToBytes_cons_eq]
    rw [show pctGroupBytes 37 (([] : List ℕ).take (pctLen 37)) = none from rfl]
    rfl
  exact import_noop_on_decode_failure anyIncomingParse defaultAppState [37] hmal
